import Mathlib

/-!
Shallow embedding of the falcon video-on-demand backend: the catalog
store (`videos` / `video_streams` tables and their access functions from
the database package), the transcoding workflow and its activities
(transcoder service), the FFmpeg command builder, and the streaming
read path (streamer service).  Machine integers are modelled as `Int` /
`Nat`, SQL tables as Lean lists of row structures, and the fallible
external collaborators (Redis cache, S3 signing) as explicit parameters.
-/

namespace Falcon

/-- A row of the `videos` table (database.Video).  `duration` is stored
as a rational standing for the Go `float64`; the column default is 0.
Timestamps are abstract `Nat` instants. -/
structure Video where
  id : String
  title : String
  originalName : String
  originalPath : String
  processingState : String
  duration : Rat := 0
  size : Int := 0
  contentType : String := ""
  createdAt : Nat := 0
  updatedAt : Nat := 0
deriving DecidableEq

/-- A row of the `video_streams` table (database.VideoStream): one
rendition of a video, keyed by (video_id, resolution, format) via the
table's UNIQUE constraint. -/
structure VideoStream where
  id : String
  videoID : String
  resolution : String
  bitrate : String
  format : String
  path : String
  size : Int := 0
  segmentSize : Int := 0
  createdAt : Nat := 0
deriving DecidableEq

/-- The natural key of `video_streams`: two rows collide exactly when
they agree on (video_id, resolution, format) — the UNIQUE constraint of
the table. -/
def sameKey (r s : VideoStream) : Bool :=
  r.videoID == s.videoID && r.resolution == s.resolution && r.format == s.format

/-- The UNIQUE(video_id, resolution, format) constraint as a predicate
on the table contents: no two distinct rows share the natural key. -/
def keyUnique (table : List VideoStream) : Prop :=
  table.Pairwise (fun a b => sameKey a b = false)

/-- Database.AddVideoStream: INSERT .. ON CONFLICT (video_id,
resolution, format) DO UPDATE SET path, size, segment_size.  On a key
conflict the existing row keeps its id, bitrate and created_at and takes
the new path, size and segment_size; otherwise the row is inserted. -/
def AddVideoStream (table : List VideoStream) (s : VideoStream) : List VideoStream :=
  if table.any (fun r => sameKey r s) then
    table.map (fun r =>
      if sameKey r s then
        { r with path := s.path, size := s.size, segmentSize := s.segmentSize }
      else r)
  else
    table ++ [s]

lemma sameKey_refl (s : VideoStream) : sameKey s s = true := by
  simp [sameKey]

lemma sameKey_of_both {a b s : VideoStream}
    (ha : sameKey a s = true) (hb : sameKey b s = true) : sameKey a b = true := by
  simp only [sameKey, Bool.and_eq_true, beq_iff_eq] at *
  exact ⟨⟨ha.1.1.trans hb.1.1.symm, ha.1.2.trans hb.1.2.symm⟩, ha.2.trans hb.2.symm⟩

lemma sameKey_update (r s : VideoStream) :
    sameKey { r with path := s.path, size := s.size, segmentSize := s.segmentSize } s
      = sameKey r s := by
  simp [sameKey]

lemma updFn_fields (s r : VideoStream) :
    (if sameKey r s then
        { r with path := s.path, size := s.size, segmentSize := s.segmentSize }
      else r).videoID = r.videoID ∧
    (if sameKey r s then
        { r with path := s.path, size := s.size, segmentSize := s.segmentSize }
      else r).resolution = r.resolution ∧
    (if sameKey r s then
        { r with path := s.path, size := s.size, segmentSize := s.segmentSize }
      else r).format = r.format := by
  split <;> exact ⟨rfl, rfl, rfl⟩

/-- The ON CONFLICT update touches only non-key columns, so it preserves
the natural key of every row it maps over. -/
lemma sameKey_updFn (s a b : VideoStream) :
    sameKey (if sameKey a s then
        { a with path := s.path, size := s.size, segmentSize := s.segmentSize } else a)
      (if sameKey b s then
        { b with path := s.path, size := s.size, segmentSize := s.segmentSize } else b)
      = sameKey a b := by
  have h1 := updFn_fields s a
  have h2 := updFn_fields s b
  simp only [sameKey] at h1 h2 ⊢
  rw [h1.1, h1.2.1, h1.2.2, h2.1, h2.2.1, h2.2.2]

lemma countP_sameKey_eq_zero {table : List VideoStream} {s : VideoStream}
    (h : table.any (fun r => sameKey r s) = false) :
    table.countP (fun r => sameKey r s) = 0 := by
  rw [List.countP_eq_zero]
  intro a ha
  simp only [List.any_eq_false] at h
  simp [h a ha]

lemma countP_sameKey_of_any {table : List VideoStream} {s : VideoStream}
    (hu : keyUnique table) (h : table.any (fun r => sameKey r s) = true) :
    table.countP (fun r => sameKey r s) = 1 := by
  induction table with
  | nil => simp at h
  | cons a t ih =>
    have hpw := (List.pairwise_cons.mp hu)
    by_cases hk : sameKey a s = true
    · have ht : t.countP (fun r => sameKey r s) = 0 := by
        rw [List.countP_eq_zero]
        intro b hb
        intro hbs
        have : sameKey a b = true := sameKey_of_both hk hbs
        rw [hpw.1 b hb] at this
        exact Bool.false_ne_true this
      simp [List.countP_cons, hk, ht]
    · have hk' : sameKey a s = false := by simpa using hk
      simp only [List.countP_cons, hk', if_false, Nat.add_zero, ite_false]
      apply ih hpw.2
      simp only [List.any_cons, Bool.or_eq_true] at h
      rcases h with h | h
      · exact absurd h hk
      · exact h

lemma keyUnique_AddVideoStream {table : List VideoStream} (s : VideoStream)
    (hu : keyUnique table) : keyUnique (AddVideoStream table s) := by
  unfold AddVideoStream
  by_cases h : table.any (fun r => sameKey r s) = true
  · rw [if_pos h]
    simp only [keyUnique, List.pairwise_map]
    exact hu.imp_of_mem (fun {a b} _ _ hab => by rw [sameKey_updFn]; exact hab)
  · rw [if_neg h]
    rw [keyUnique, List.pairwise_append]
    have hf : ∀ a ∈ table, sameKey a s = false := by
      intro a ha
      by_contra hc
      exact h (List.any_eq_true.mpr ⟨a, ha, by simpa using hc⟩)
    refine ⟨hu, by simp [keyUnique], ?_⟩
    intro a ha b hb
    simp only [List.mem_singleton] at hb
    subst hb
    exact hf a ha

lemma any_sameKey_AddVideoStream (table : List VideoStream) (s : VideoStream) :
    (AddVideoStream table s).any (fun r => sameKey r s) = true := by
  unfold AddVideoStream
  by_cases h : table.any (fun r => sameKey r s) = true
  · rw [if_pos h]
    simp only [List.any_eq_true] at h ⊢
    obtain ⟨r, hr, hrs⟩ := h
    refine ⟨_, List.mem_map_of_mem _ hr, ?_⟩
    rw [if_pos hrs, sameKey_update]
    exact hrs
  · rw [if_neg h]
    simp [sameKey_refl]

lemma AddVideoStream_countP {table : List VideoStream} (s : VideoStream)
    (hu : keyUnique table) :
    (AddVideoStream table s).countP (fun r => sameKey r s) = 1 :=
  countP_sameKey_of_any (keyUnique_AddVideoStream s hu)
    (any_sameKey_AddVideoStream table s)

lemma AddVideoStream_matching_row {table : List VideoStream} (s : VideoStream) :
    ∀ r ∈ AddVideoStream table s, sameKey r s = true →
      r.path = s.path ∧ r.size = s.size ∧ r.segmentSize = s.segmentSize := by
  intro r hr hrs
  unfold AddVideoStream at hr
  by_cases h : table.any (fun r => sameKey r s) = true
  · rw [if_pos h] at hr
    obtain ⟨a, _, rfl⟩ := List.mem_map.mp hr
    by_cases hk : sameKey a s = true
    · simp [hk]
    · rw [if_neg hk] at hrs ⊢
      exact absurd hrs hk
  · rw [if_neg h] at hr
    rcases List.mem_append.mp hr with hr | hr
    · rw [Bool.not_eq_true, List.any_eq_false] at h
      exact absurd hrs (h r hr)
    · simp only [List.mem_singleton] at hr
      subst hr
      exact ⟨rfl, rfl, rfl⟩

lemma AddVideoStream_idem_eq (table : List VideoStream) (s : VideoStream) :
    AddVideoStream (AddVideoStream table s) s = AddVideoStream table s := by
  have hany := any_sameKey_AddVideoStream table s
  conv_lhs => rw [AddVideoStream]
  rw [if_pos hany]
  have hfix : ∀ r ∈ AddVideoStream table s,
      (if sameKey r s then
        { r with path := s.path, size := s.size, segmentSize := s.segmentSize } else r) = r := by
    intro r hr
    by_cases hk : sameKey r s = true
    · rw [if_pos hk]
      obtain ⟨hp, hsz, hseg⟩ := AddVideoStream_matching_row s r hr hk
      cases r
      simp_all
    · rw [if_neg hk]
  calc (AddVideoStream table s).map (fun r =>
          if sameKey r s then
            { r with path := s.path, size := s.size, segmentSize := s.segmentSize } else r)
      = (AddVideoStream table s).map id := List.map_congr_left hfix
    _ = AddVideoStream table s := List.map_id _

/-- C2: Publishing a Rendition is idempotent: running the publish step
(AddVideoStream) twice with the identical stream row leaves exactly one
row per (video id, resolution, format) natural key, the second write
replacing the prior record's path, size and segment size rather than
duplicating it. -/
theorem publish_rendition_idempotent (table : List VideoStream) (s : VideoStream)
    (hu : keyUnique table) :
    (AddVideoStream (AddVideoStream table s) s).countP (fun r => sameKey r s) = 1 ∧
    AddVideoStream (AddVideoStream table s) s = AddVideoStream table s ∧
    ∀ r ∈ AddVideoStream (AddVideoStream table s) s, sameKey r s = true →
      r.path = s.path ∧ r.size = s.size ∧ r.segmentSize = s.segmentSize := by
  refine ⟨?_, AddVideoStream_idem_eq table s, fun r hr => AddVideoStream_matching_row s r hr⟩
  rw [AddVideoStream_idem_eq]
  exact AddVideoStream_countP s hu

/-- A concrete rendition row used to instantiate the publish-idempotence
law on a concrete input. -/
def demoStream : VideoStream :=
  { id := "vid1-v0", videoID := "vid1", resolution := "1920x1080", bitrate := "5000k",
    format := "hls", path := "videos/vid1/hls/vid1_v0.m3u8", size := 0, segmentSize := 10,
    createdAt := 0 }

/-- Witness for C2 at the empty table and a concrete rendition row. -/
theorem publish_rendition_idempotent_witness :
    keyUnique ([] : List VideoStream) ∧
    ((AddVideoStream (AddVideoStream [] demoStream) demoStream).countP
        (fun r => sameKey r demoStream) = 1 ∧
      AddVideoStream (AddVideoStream [] demoStream) demoStream =
        AddVideoStream [] demoStream ∧
      ∀ r ∈ AddVideoStream (AddVideoStream [] demoStream) demoStream,
        sameKey r demoStream = true →
          r.path = demoStream.path ∧ r.size = demoStream.size ∧
            r.segmentSize = demoStream.segmentSize) :=
  ⟨List.Pairwise.nil, publish_rendition_idempotent [] demoStream List.Pairwise.nil⟩

/-- A ladder entry (ffmpeg.Resolution): width, height and a target
bitrate given as a string such as "2500k". -/
structure Resolution where
  width : Nat
  height : Nat
  bitrate : String
deriving DecidableEq

/-- Result of Go's fmt %d verb applied to a string value, as
TranscodeToHLS does in `fmt.Sprintf("#EXT-X-STREAM-INF:BANDWIDTH=%d,..",
res.Bitrate)` where res.Bitrate is a string: fmt renders the mismatched
verb as `%!d(string=<value>)`. -/
def goIntVerbOnString (s : String) : String := "%!d(string=" ++ s ++ ")"

/-- Variant naming scheme of the transcoder: variant index i is `v{i}`. -/
def variantName (i : Nat) : String := "v" ++ toString i

/-- Per-variant playlist file name `{segmentFilename}_v{i}.m3u8`. -/
def playlistFileName (segmentFilename : String) (i : Nat) : String :=
  segmentFilename ++ "_" ++ variantName i ++ ".m3u8"

/-- Resolution label `{width}x{height}` used for both the manifest
RESOLUTION attribute and the rendition row. -/
def resolutionLabel (res : Resolution) : String :=
  toString res.width ++ "x" ++ toString res.height

/-- One `#EXT-X-STREAM-INF` line of the master playlist as TranscodeToHLS
formats it (BANDWIDTH rendered through the %d verb on a string bitrate). -/
def streamInfLine (res : Resolution) : String :=
  "#EXT-X-STREAM-INF:BANDWIDTH=" ++ goIntVerbOnString res.bitrate ++
    ",RESOLUTION=" ++ resolutionLabel res

/-- Loop body of TranscodeToHLS's master-playlist construction: for each
indexed ladder entry, one STREAM-INF line then that variant's playlist
file name. -/
def variantLines (segmentFilename : String) : List (Nat × Resolution) → List String
  | [] => []
  | p :: ps =>
      streamInfLine p.2 :: playlistFileName segmentFilename p.1 ::
        variantLines segmentFilename ps

/-- The lines of the master playlist TranscodeToHLS accumulates in
masterPlaylistContent: the EXTM3U/version header, then per ladder entry
one STREAM-INF line followed by that variant's playlist file name. -/
def masterPlaylistLines (segmentFilename : String) (resolutions : List Resolution) :
    List String :=
  "#EXTM3U" :: "#EXT-X-VERSION:3" :: variantLines segmentFilename resolutions.enum

/-- The master playlist content string (each accumulated line is
terminated by a newline, matching the WriteString calls). -/
def masterPlaylistContent (segmentFilename : String) (resolutions : List Resolution) :
    String :=
  String.join ((masterPlaylistLines segmentFilename resolutions).map (fun l => l ++ "\n"))

/-- Storage object key of a variant playlist recorded by
TranscodeVideoActivity: `videos/{videoId}/hls/{playlist file}`. -/
def streamPath (videoID : String) (i : Nat) : String :=
  "videos/" ++ videoID ++ "/hls/" ++ playlistFileName videoID i

/-- The rendition row TranscodeVideoActivity records for ladder entry i
(size 0 and segment size 10 are the literals the activity writes). -/
def transcodeStreamRow (videoID : String) (createdAt : Nat) (i : Nat) (res : Resolution) :
    VideoStream :=
  { id := videoID ++ "-" ++ variantName i
    videoID := videoID
    resolution := resolutionLabel res
    bitrate := res.bitrate
    format := "hls"
    path := streamPath videoID i
    size := 0
    segmentSize := 10
    createdAt := createdAt }

/-- The list of rendition descriptors a successful TranscodeVideoActivity
produces: one per ladder entry, in ladder order. -/
def transcodeStreams (videoID : String) (createdAt : Nat) (resolutions : List Resolution) :
    List VideoStream :=
  resolutions.enum.map (fun p => transcodeStreamRow videoID createdAt p.1 p.2)

/-- Recognizer for a master-playlist STREAM-INF entry line: the line
starts with the 18 characters of `#EXT-X-STREAM-INF:`. -/
def isStreamInfLine (l : String) : Bool :=
  l.data.take 18 == "#EXT-X-STREAM-INF:".data

lemma isStreamInfLine_streamInf (res : Resolution) :
    isStreamInfLine (streamInfLine res) = true := by
  unfold isStreamInfLine streamInfLine
  rw [String.data_append, String.data_append, String.data_append]
  rw [List.append_assoc, List.append_assoc]
  rw [List.take_append_of_le_length (by decide)]
  decide

lemma isStreamInfLine_false_of_head {l : String} (h : l.data.head? ≠ some '#') :
    isStreamInfLine l = false := by
  unfold isStreamInfLine
  cases hd : l.data with
  | nil => decide
  | cons c cs =>
    have hc : c ≠ '#' := by
      intro hc
      exact h (by rw [hd, hc]; rfl)
    have hpat : "#EXT-X-STREAM-INF:".data = '#' :: "EXT-X-STREAM-INF:".data := by decide
    rw [hpat, List.take_succ_cons, List.cons_beq_cons,
      beq_eq_false_iff_ne.mpr hc, Bool.false_and]

lemma head?_playlistFileName (f : String) (i : Nat)
    (hv : f.data.head? ≠ some '#') :
    (playlistFileName f i).data.head? ≠ some '#' := by
  unfold playlistFileName
  rw [String.append_assoc, String.append_assoc, String.data_append, List.head?_append]
  cases hf : f.data.head? with
  | none =>
    rw [Option.none_or]
    intro hcon
    rw [String.data_append] at hcon
    rw [show (("_").data ++ (variantName i ++ ".m3u8").data).head? = some '_' from rfl] at hcon
    simp at hcon
  | some c =>
    rw [hf] at hv
    rw [show ∀ x : Option Char, (some c).or x = some c from fun _ => rfl]
    exact hv

lemma filter_variantLines (f : String) (ps : List (Nat × Resolution))
    (hv : f.data.head? ≠ some '#') :
    (variantLines f ps).filter isStreamInfLine = ps.map (fun p => streamInfLine p.2) := by
  induction ps with
  | nil => rfl
  | cons p t ih =>
    rw [variantLines, List.filter_cons, List.filter_cons,
      isStreamInfLine_streamInf,
      isStreamInfLine_false_of_head (head?_playlistFileName f p.1 hv)]
    simp [ih]

lemma variantLines_length (f : String) (ps : List (Nat × Resolution)) :
    (variantLines f ps).length = 2 * ps.length := by
  induction ps with
  | nil => rfl
  | cons p t ih => simp [variantLines, ih]; omega

lemma variantLines_getElem (f : String) (ps : List (Nat × Resolution)) (i : Nat) :
    (variantLines f ps)[2*i]? = ps[i]?.map (fun p => streamInfLine p.2) ∧
    (variantLines f ps)[2*i+1]? = ps[i]?.map (fun p => playlistFileName f p.1) := by
  induction ps generalizing i with
  | nil => simp [variantLines]
  | cons p t ih =>
    cases i with
    | zero => simp [variantLines]
    | succ n =>
      have h2 : 2 * (n + 1) = 2 * n + 1 + 1 := by omega
      rw [variantLines, h2]
      simp only [List.getElem?_cons_succ]
      exact ih n

/-- C3: for a ladder of N entries, a successful Transcode stage produces
exactly N rendition descriptors, and the master manifest built by
TranscodeToHLS lists exactly N STREAM-INF entries in ladder order, the
entry of ladder position i carrying that variant's bitrate and
resolution and being followed by that variant's playlist file name. -/
theorem transcode_ladder_output (videoID : String) (t : Nat) (rs : List Resolution)
    (hv : videoID.data.head? ≠ some '#') :
    (transcodeStreams videoID t rs).length = rs.length ∧
    (masterPlaylistLines videoID rs).filter isStreamInfLine = rs.map streamInfLine ∧
    (∀ i res, rs[i]? = some res →
      (masterPlaylistLines videoID rs)[2*i+2]? = some (streamInfLine res) ∧
      (masterPlaylistLines videoID rs)[2*i+3]? = some (playlistFileName videoID i)) ∧
    (∀ res ∈ rs,
      (∃ u v, streamInfLine res = u ++ res.bitrate ++ v) ∧
      ∃ w, streamInfLine res = w ++ ",RESOLUTION=" ++ resolutionLabel res) := by
  refine ⟨?_, ?_, ?_, ?_⟩
  · simp [transcodeStreams, List.enum_length]
  · rw [masterPlaylistLines, List.filter_cons, List.filter_cons]
    rw [show isStreamInfLine "#EXTM3U" = false from by decide,
      show isStreamInfLine "#EXT-X-VERSION:3" = false from by decide]
    simp only [Bool.false_eq_true, if_false, ite_false]
    rw [filter_variantLines videoID rs.enum hv]
    rw [show (fun p : Nat × Resolution => streamInfLine p.2)
        = streamInfLine ∘ Prod.snd from rfl]
    rw [← List.map_map, List.enum_map_snd]
  · intro i res h
    rw [masterPlaylistLines,
      show 2*i+2 = 2*i+1+1 from rfl, show 2*i+3 = 2*i+1+1+1 from rfl]
    simp only [List.getElem?_cons_succ]
    have h1 := (variantLines_getElem videoID rs.enum i).1
    have h2 := (variantLines_getElem videoID rs.enum i).2
    rw [List.getElem?_enum, h] at h1 h2
    exact ⟨h1, h2⟩
  · intro res _
    refine ⟨⟨"#EXT-X-STREAM-INF:BANDWIDTH=%!d(string=",
      "),RESOLUTION=" ++ resolutionLabel res, ?_⟩,
      "#EXT-X-STREAM-INF:BANDWIDTH=" ++ goIntVerbOnString res.bitrate, rfl⟩
    have hu : ("#EXT-X-STREAM-INF:BANDWIDTH=%!d(string=" : String).data
        = ("#EXT-X-STREAM-INF:BANDWIDTH=" : String).data
          ++ ("%!d(string=" : String).data := by decide
    have hv : ("),RESOLUTION=" : String).data
        = (")" : String).data ++ (",RESOLUTION=" : String).data := by decide
    apply String.ext
    simp only [streamInfLine, goIntVerbOnString, String.data_append, hu, hv,
      List.append_assoc]
    simp [List.cons_append, List.nil_append, List.append_assoc]

/-- The two-entry ladder of the spec's example scenario A. -/
def demoLadder : List Resolution :=
  [⟨1920, 1080, "5000k"⟩, ⟨1280, 720, "2500k"⟩]

/-- Witness for C3 at a concrete video id and the example two-entry ladder. -/
theorem transcode_ladder_output_witness :
    ("vid1" : String).data.head? ≠ some '#' ∧
    ((transcodeStreams "vid1" 0 demoLadder).length = demoLadder.length ∧
     (masterPlaylistLines "vid1" demoLadder).filter isStreamInfLine =
       demoLadder.map streamInfLine ∧
     (∀ i res, demoLadder[i]? = some res →
       (masterPlaylistLines "vid1" demoLadder)[2*i+2]? = some (streamInfLine res) ∧
       (masterPlaylistLines "vid1" demoLadder)[2*i+3]? =
         some (playlistFileName "vid1" i)) ∧
     (∀ res ∈ demoLadder,
       (∃ u v, streamInfLine res = u ++ res.bitrate ++ v) ∧
       ∃ w, streamInfLine res = w ++ ",RESOLUTION=" ++ resolutionLabel res)) :=
  ⟨by decide, transcode_ladder_output "vid1" 0 demoLadder (by decide)⟩

/-- Result of ffmpeg.GetMediaInfo: an info map and an error. -/
structure MediaInfoResult where
  info : List (String × String)
  err : Option String
deriving DecidableEq

/-- ffmpeg.GetMediaInfo: runs the tool, discards its exit error, creates
an empty info map, leaves the output-parsing step absent, and returns
the (empty) map with a nil error.  The tool's stderr output is taken as
a parameter to record that the function ignores it. -/
def GetMediaInfo (toolStderr : String) : MediaInfoResult :=
  { info := [], err := none }

/-- Duration computation of ExtractMetadataActivity: parse the
"duration" entry of the media-info map when present, else keep 0.
`parseF` stands for Go's strconv.ParseFloat. -/
def extractedDuration (parseF : String → Rat) (toolStderr : String) : Rat :=
  match (GetMediaInfo toolStderr).info.lookup "duration" with
  | some ds => parseF ds
  | none => 0

/-- C10: GetMediaInfo returns a nil error and an empty metadata map for
every input (it never parses the tool's output), so the duration the
metadata-extraction stage computes is 0 for every video, regardless of
the parser and of the tool's actual output. -/
theorem media_info_always_empty (parseF : String → Rat) (toolStderr : String) :
    (GetMediaInfo toolStderr).info = [] ∧
    (GetMediaInfo toolStderr).err = none ∧
    extractedDuration parseF toolStderr = 0 :=
  ⟨rfl, rfl, rfl⟩

/-- The catalog-store state: contents of the `videos` and
`video_streams` tables. -/
structure DBState where
  videos : List Video
  streams : List VideoStream
deriving DecidableEq

/-- Database.UpdateVideoStatus: UPDATE videos SET processing_state = $1,
updated_at = NOW() WHERE id = $2.  An UPDATE matching zero rows is not
an error. -/
def UpdateVideoStatus (videos : List Video) (videoID status : String) (now : Nat) :
    List Video :=
  videos.map (fun v =>
    if v.id == videoID then { v with processingState := status, updatedAt := now } else v)

/-- Database.CreateVideo: a plain INSERT; a duplicate primary key is an
error. -/
def CreateVideo (videos : List Video) (v : Video) : Except String (List Video) :=
  if videos.any (fun w => w.id == v.id) then Except.error "duplicate key"
  else Except.ok (videos ++ [v])

/-- One catalog write issued by the transcoding pipeline. -/
inductive DbOp
  | updStatus (videoID status : String)
  | createVid (v : Video)
  | addStream (s : VideoStream)
deriving DecidableEq

/-- Effect of one catalog write on the database state. -/
def applyOp (now : Nat) : DbOp → DBState → Except String DBState
  | .updStatus id st, db =>
      Except.ok { db with videos := UpdateVideoStatus db.videos id st now }
  | .createVid v, db => (CreateVideo db.videos v).map (fun vs => { db with videos := vs })
  | .addStream s, db => Except.ok { db with streams := AddVideoStream db.streams s }

/-- Run a sequence of catalog writes, stopping at the first error. -/
def runOps (now : Nat) : List DbOp → DBState → Except String DBState
  | [], db => Except.ok db
  | op :: ops, db => (applyOp now op db).bind (runOps now ops)

/-- Arguments of the transcoding workflow (TranscodeParams). -/
structure TranscodeParams where
  videoID : String
  objectKey : String
  filename : String
  contentType : String
deriving DecidableEq

/-- The Video row DownloadVideoActivity inserts after fetching the
bytes: processing state "downloading", duration left at its default 0.
The title (filename stripped of its extension) and measured file size
are taken as parameters. -/
def downloadVideoRow (p : TranscodeParams) (title : String) (fileSize : Int)
    (now : Nat) : Video :=
  { id := p.videoID
    title := title
    originalName := p.filename
    originalPath := p.objectKey
    processingState := "downloading"
    duration := 0
    size := fileSize
    contentType := p.contentType
    createdAt := now
    updatedAt := now }

/-- Fate of one TranscodeVideoActivity attempt that did not complete:
`none` when it died before its status write (GetVideo or the status
update failed), `some k` when it wrote "transcoding" and recorded k
stream rows before dying. -/
def transcodeAttemptOps (p : TranscodeParams) (now : Nat) (rs : List Resolution) :
    Option Nat → List DbOp
  | none => []
  | some k =>
      DbOp.updStatus p.videoID "transcoding" ::
        ((transcodeStreams p.videoID now rs).take k).map DbOp.addStream

/-- Catalog writes of a series of failed TranscodeVideoActivity
attempts. -/
def transcodeFailedOps (p : TranscodeParams) (now : Nat) (rs : List Resolution) :
    List (Option Nat) → List DbOp
  | [] => []
  | a :: rest => transcodeAttemptOps p now rs a ++ transcodeFailedOps p now rs rest

/-- Fate of one workflow run, as far as catalog writes are concerned.
`downloadFail`: every download attempt failed before CreateVideo.
`metadataFail`: the metadata activity never got its "analyzing" status
write through.  `transcodeFail`: the listed transcode attempts all
failed and the retry budget was exhausted.  `success`: after the listed
failed transcode attempts, one attempt completed (recording all stream
rows), and the run finished. -/
inductive RunOutcome
  | downloadFail
  | metadataFail
  | transcodeFail (attempts : List (Option Nat))
  | success (attempts : List (Option Nat))
deriving DecidableEq

/-- The sequence of catalog writes TranscodeWorkflow issues for one run:
an initial "processing" status write, then per-stage writes, ending in
the workflow's "error" write after a fatal stage failure or in
"completed" after full success (CleanupActivity performs no catalog
write). -/
def workflowOps (p : TranscodeParams) (title : String) (fileSize : Int) (now : Nat)
    (rs : List Resolution) : RunOutcome → List DbOp
  | .downloadFail =>
      [DbOp.updStatus p.videoID "processing", DbOp.updStatus p.videoID "error"]
  | .metadataFail =>
      [DbOp.updStatus p.videoID "processing",
       DbOp.createVid (downloadVideoRow p title fileSize now),
       DbOp.updStatus p.videoID "error"]
  | .transcodeFail attempts =>
      DbOp.updStatus p.videoID "processing" ::
      DbOp.createVid (downloadVideoRow p title fileSize now) ::
      DbOp.updStatus p.videoID "analyzing" ::
      (transcodeFailedOps p now rs attempts ++ [DbOp.updStatus p.videoID "error"])
  | .success attempts =>
      DbOp.updStatus p.videoID "processing" ::
      DbOp.createVid (downloadVideoRow p title fileSize now) ::
      DbOp.updStatus p.videoID "analyzing" ::
      (transcodeFailedOps p now rs attempts ++
        (DbOp.updStatus p.videoID "transcoding" ::
          ((transcodeStreams p.videoID now rs).map DbOp.addStream ++
            [DbOp.updStatus p.videoID "completed"])))

/-- The processing states a sequence of catalog writes records: the
argument of each status update, and the state field of each inserted
Video row. -/
def statusesOf : List DbOp → List String
  | [] => []
  | .updStatus _ st :: ops => st :: statusesOf ops
  | .createVid v :: ops => v.processingState :: statusesOf ops
  | .addStream _ :: ops => statusesOf ops

/-- The processing-state enumeration of the specification. -/
def specStates : List String :=
  ["received", "downloading", "analyzing", "transcoding", "completed", "error"]

/-- The states the workflow actually writes: the spec's enumeration with
"processing" in place of "received" as the initial state. -/
def workflowStates : List String :=
  ["processing", "downloading", "analyzing", "transcoding", "completed", "error"]

/-- Rank of a state along the forward path; the terminal states share
the top rank. -/
def stateRank (s : String) : Nat :=
  if s == "processing" then 0
  else if s == "downloading" then 1
  else if s == "analyzing" then 2
  else if s == "transcoding" then 3
  else 4

/-- One admissible transition of the recorded state: never decreasing in
rank and never leaving a terminal state (in particular never
error → completed). -/
def forwardStep (a b : String) : Prop :=
  stateRank a ≤ stateRank b ∧ a ≠ "completed" ∧ a ≠ "error"

instance (a b : String) : Decidable (forwardStep a b) :=
  inferInstanceAs (Decidable (stateRank a ≤ stateRank b ∧ a ≠ "completed" ∧ a ≠ "error"))

lemma statusesOf_append (l1 l2 : List DbOp) :
    statusesOf (l1 ++ l2) = statusesOf l1 ++ statusesOf l2 := by
  induction l1 with
  | nil => rfl
  | cons op t ih => cases op <;> simp [statusesOf, ih]

lemma statusesOf_map_addStream (l : List VideoStream) :
    statusesOf (l.map DbOp.addStream) = [] := by
  induction l with
  | nil => rfl
  | cons s t ih => simp [statusesOf, ih]

lemma statusesOf_failed (p : TranscodeParams) (now : Nat) (rs : List Resolution)
    (atts : List (Option Nat)) :
    ∀ s ∈ statusesOf (transcodeFailedOps p now rs atts), s = "transcoding" := by
  induction atts with
  | nil => simp [transcodeFailedOps, statusesOf]
  | cons a rest ih =>
    rw [transcodeFailedOps, statusesOf_append]
    intro s hs
    rcases List.mem_append.mp hs with hs | hs
    · cases a with
      | none => simp [transcodeAttemptOps, statusesOf] at hs
      | some k =>
        rw [show transcodeAttemptOps p now rs (some k)
            = DbOp.updStatus p.videoID "transcoding" ::
              ((transcodeStreams p.videoID now rs).take k).map DbOp.addStream from rfl,
          show ∀ ops, statusesOf (DbOp.updStatus p.videoID "transcoding" :: ops)
            = "transcoding" :: statusesOf ops from fun _ => rfl,
          statusesOf_map_addStream] at hs
        simpa using hs
    · exact ih s hs

lemma chain_from_transcoding (fin : String)
    (hfin : fin = "completed" ∨ fin = "error") :
    ∀ m : List String, (∀ s ∈ m, s = "transcoding") →
      List.Chain' forwardStep ("transcoding" :: (m ++ [fin])) := by
  intro m
  induction m with
  | nil =>
    intro _
    rw [List.nil_append]
    rcases hfin with rfl | rfl <;> exact List.chain'_pair.mpr (by decide)
  | cons s m' ih =>
    intro hm
    have hs : s = "transcoding" := hm s (List.mem_cons_self s m')
    subst hs
    rw [List.cons_append]
    refine List.chain'_cons.mpr ⟨by decide, ?_⟩
    exact ih (fun x hx => hm x (List.mem_cons_of_mem _ hx))

lemma chain_analyzing_tail (fin : String)
    (hfin : fin = "completed" ∨ fin = "error")
    (m : List String) (hm : ∀ s ∈ m, s = "transcoding") :
    List.Chain' forwardStep ("analyzing" :: (m ++ [fin])) := by
  cases m with
  | nil =>
    rw [List.nil_append]
    rcases hfin with rfl | rfl <;> exact List.chain'_pair.mpr (by decide)
  | cons s m' =>
    have hs : s = "transcoding" := hm s (List.mem_cons_self s m')
    subst hs
    rw [List.cons_append]
    refine List.chain'_cons.mpr ⟨by decide, ?_⟩
    exact chain_from_transcoding fin hfin m' (fun x hx => hm x (List.mem_cons_of_mem _ hx))

/-- C1 (amended): every status trace the workflow can record moves only
forward along processing → downloading → analyzing → transcoding →
completed | error, never leaves a terminal state (in particular never
steps from error to completed), and stays within the workflow's state
set — which is the spec's enumeration with "processing" written in
place of "received" as the initial state. -/
theorem pipeline_states_forward (p : TranscodeParams) (title : String)
    (fileSize : Int) (now : Nat) (rs : List Resolution) (o : RunOutcome) :
    List.Chain' forwardStep (statusesOf (workflowOps p title fileSize now rs o)) ∧
    ∀ s ∈ statusesOf (workflowOps p title fileSize now rs o), s ∈ workflowStates := by
  cases o with
  | downloadFail =>
    refine ⟨?_, ?_⟩
    · show List.Chain' forwardStep ["processing", "error"]
      exact List.chain'_pair.mpr (by decide)
    · show ∀ s ∈ (["processing", "error"] : List String), s ∈ workflowStates
      decide
  | metadataFail =>
    refine ⟨?_, ?_⟩
    · show List.Chain' forwardStep ["processing", "downloading", "error"]
      exact List.chain'_cons.mpr ⟨by decide, List.chain'_pair.mpr (by decide)⟩
    · show ∀ s ∈ (["processing", "downloading", "error"] : List String),
        s ∈ workflowStates
      decide
  | transcodeFail atts =>
    have hlist : statusesOf (workflowOps p title fileSize now rs
          (RunOutcome.transcodeFail atts))
        = "processing" :: "downloading" :: "analyzing" ::
          (statusesOf (transcodeFailedOps p now rs atts) ++ ["error"]) := by
      simp [workflowOps, statusesOf, statusesOf_append, downloadVideoRow]
    rw [hlist]
    refine ⟨?_, ?_⟩
    · refine List.chain'_cons.mpr ⟨by decide, List.chain'_cons.mpr ⟨by decide, ?_⟩⟩
      exact chain_analyzing_tail "error" (Or.inr rfl) _ (statusesOf_failed p now rs atts)
    · intro s hs
      simp at hs
      rcases hs with rfl | rfl | rfl | hs | rfl
      · decide
      · decide
      · decide
      · rw [statusesOf_failed p now rs atts s hs]; decide
      · decide
  | success atts =>
    have hlist : statusesOf (workflowOps p title fileSize now rs
          (RunOutcome.success atts))
        = "processing" :: "downloading" :: "analyzing" ::
          ((statusesOf (transcodeFailedOps p now rs atts) ++ ["transcoding"])
            ++ ["completed"]) := by
      simp [workflowOps, statusesOf, statusesOf_append, statusesOf_map_addStream,
        downloadVideoRow]
    rw [hlist]
    have hmem : ∀ x ∈ statusesOf (transcodeFailedOps p now rs atts) ++ ["transcoding"],
        x = "transcoding" := by
      intro x hx
      rcases List.mem_append.mp hx with hx | hx
      · exact statusesOf_failed p now rs atts x hx
      · simpa using hx
    refine ⟨?_, ?_⟩
    · refine List.chain'_cons.mpr ⟨by decide, List.chain'_cons.mpr ⟨by decide, ?_⟩⟩
      exact chain_analyzing_tail "completed" (Or.inl rfl) _ hmem
    · intro s hs
      simp at hs
      rcases hs with rfl | rfl | rfl | hs | rfl | rfl
      · decide
      · decide
      · decide
      · rw [statusesOf_failed p now rs atts s hs]; decide
      · decide
      · decide

/-- A concrete workflow parameter record used for concrete runs. -/
def demoParams : TranscodeParams :=
  { videoID := "vid1", objectKey := "uploads/movie.mp4",
    filename := "movie.mp4", contentType := "video/mp4" }

/-- C1 counterexample: the workflow's very first status write is
"processing", a state outside the spec's enumeration, so on the fully
successful run not every recorded state lies in the spec's state set. -/
theorem pipeline_states_spec_counterexample :
    ¬ (∀ s ∈ statusesOf (workflowOps demoParams "movie" 0 0 demoLadder
        (RunOutcome.success [])), s ∈ specStates) := by
  decide

lemma UpdateVideoStatus_no_match (videos : List Video) (id st : String) (now : Nat)
    (h : ∀ v ∈ videos, v.id ≠ id) : UpdateVideoStatus videos id st now = videos := by
  induction videos with
  | nil => rfl
  | cons v vs ih =>
    show (if (v.id == id) = true then { v with processingState := st, updatedAt := now }
        else v) :: UpdateVideoStatus vs id st now = v :: vs
    rw [if_neg (by simp [h v (List.mem_cons_self v vs)]),
      ih (fun w hw => h w (List.mem_cons_of_mem v hw))]

lemma createVid_not_in_attempt (p : TranscodeParams) (now : Nat) (rs : List Resolution)
    (a : Option Nat) (v : Video) :
    DbOp.createVid v ∉ transcodeAttemptOps p now rs a := by
  cases a with
  | none => simp [transcodeAttemptOps]
  | some k =>
    simp only [transcodeAttemptOps, List.mem_cons, List.mem_map]
    rintro (h | ⟨s, _, h⟩) <;> exact DbOp.noConfusion h

lemma createVid_not_in_failed (p : TranscodeParams) (now : Nat) (rs : List Resolution)
    (atts : List (Option Nat)) (v : Video) :
    DbOp.createVid v ∉ transcodeFailedOps p now rs atts := by
  induction atts with
  | nil => simp [transcodeFailedOps]
  | cons a rest ih =>
    rw [transcodeFailedOps]
    intro hmem
    rcases List.mem_append.mp hmem with hmem | hmem
    · exact createVid_not_in_attempt p now rs a v hmem
    · exact ih hmem

/-- C9: updating the processing state of a video id that has no catalog
row succeeds without error and changes no row; the workflow's very
first catalog write is the "processing" status update — a silent no-op
on a state with no row for the video — and every Video row the workflow
ever creates is created by the Download stage with state "downloading". -/
theorem update_missing_video_noop (videos : List Video) (id st : String) (now : Nat)
    (db : DBState) (p : TranscodeParams) (title : String) (fileSize : Int)
    (rs : List Resolution) (o : RunOutcome)
    (h : ∀ v ∈ videos, v.id ≠ id) (hdb : ∀ v ∈ db.videos, v.id ≠ p.videoID) :
    UpdateVideoStatus videos id st now = videos ∧
    (workflowOps p title fileSize now rs o).head? =
      some (DbOp.updStatus p.videoID "processing") ∧
    applyOp now (DbOp.updStatus p.videoID "processing") db = Except.ok db ∧
    (∀ v, DbOp.createVid v ∈ workflowOps p title fileSize now rs o →
      v.processingState = "downloading") := by
  refine ⟨UpdateVideoStatus_no_match videos id st now h, ?_, ?_, ?_⟩
  · cases o <;> rfl
  · show Except.ok { db with videos := UpdateVideoStatus db.videos p.videoID "processing" now }
      = Except.ok db
    rw [UpdateVideoStatus_no_match db.videos p.videoID "processing" now hdb]
  · intro v hv
    cases o with
    | downloadFail => simp [workflowOps] at hv
    | metadataFail =>
      simp [workflowOps] at hv
      subst hv
      rfl
    | transcodeFail atts =>
      simp [workflowOps] at hv
      rcases hv with rfl | hv
      · rfl
      · exact absurd hv (createVid_not_in_failed p now rs atts v)
    | success atts =>
      simp [workflowOps] at hv
      rcases hv with rfl | hv
      · rfl
      · exact absurd hv (createVid_not_in_failed p now rs atts v)

/-- Witness for C9 at the empty catalog and concrete run parameters. -/
theorem update_missing_video_noop_witness :
    (∀ v ∈ ([] : List Video), v.id ≠ "vid1") ∧
    (∀ v ∈ (⟨[], []⟩ : DBState).videos, v.id ≠ demoParams.videoID) ∧
    (UpdateVideoStatus [] "vid1" "processing" 0 = [] ∧
     (workflowOps demoParams "movie" 0 0 demoLadder (RunOutcome.success [])).head? =
       some (DbOp.updStatus demoParams.videoID "processing") ∧
     applyOp 0 (DbOp.updStatus demoParams.videoID "processing") ⟨[], []⟩ =
       Except.ok ⟨[], []⟩ ∧
     (∀ v, DbOp.createVid v ∈ workflowOps demoParams "movie" 0 0 demoLadder
         (RunOutcome.success []) → v.processingState = "downloading")) :=
  ⟨fun v hv => absurd hv (List.not_mem_nil v),
   fun v hv => absurd hv (List.not_mem_nil v),
   update_missing_video_noop [] "vid1" "processing" 0 ⟨[], []⟩ demoParams "movie" 0
     demoLadder (RunOutcome.success [])
     (fun v hv => absurd hv (List.not_mem_nil v))
     (fun v hv => absurd hv (List.not_mem_nil v))⟩

/-- C4 evaluated at a failing input: a fully successful pipeline run on
a fresh catalog ends with the Video row in state "completed" but with
duration still 0 — the probe stage transitions the state yet never
writes a duration to the catalog, whatever the media content was. -/
theorem probe_leaves_duration_zero :
    (runOps 0 (workflowOps demoParams "movie" 0 0 demoLadder (RunOutcome.success []))
        ⟨[], []⟩).map
      (fun db => db.videos.map (fun v => (v.id, v.processingState, v.duration)))
      = Except.ok [("vid1", "completed", (0 : Rat))] := by
  rfl

/-- Outcome of a Redis GET in the streamer: a value, the key-missing
reply (redis.Nil, which the client reports as a non-nil error), or an
unavailable cache (connection error). -/
inductive RedisGet
  | ok (value : String)
  | nilReply
  | connErr
deriving DecidableEq

/-- The streamer handlers' response, as far as the read path is
concerned: bytes served with a content type, a 307 redirect to a URL,
or an http.Error with a status code. -/
inductive HttpResponse
  | body (contentType : String) (content : String)
  | redirect (url : String)
  | err (status : Nat)
deriving DecidableEq

/-- TTL (in seconds) of the signed URL issued for an individual
manifest/segment request: 1 * time.Hour. -/
def segmentURLTTL : Nat := 3600

/-- TTL (in seconds) of the signed master-manifest URL in the
video-detail response: 24 * time.Hour. -/
def masterURLTTL : Nat := 86400

/-- isM3U8File: the filename is longer than 5 bytes and its last five
bytes are ".m3u8" (modelled on the character list of the string). -/
def isM3U8File (filename : String) : Bool :=
  decide (filename.data.length > 5) &&
    (filename.data.drop (filename.data.length - 5) == ".m3u8".data)

/-- Tail of both file-serving handlers: generate a signed URL with the
1-hour TTL and redirect to it, or report an internal error when signing
fails. -/
def signedRedirect (sign : String → Nat → Except Unit String) (objectKey : String) :
    HttpResponse :=
  match sign objectKey segmentURLTTL with
  | Except.ok url => HttpResponse.redirect url
  | Except.error _ => HttpResponse.err 500

/-- ServeHLSFile: build the object key `videos/{id}/hls/{filename}`,
look up `hls:{objectKey}` in the cache; serve the cached bytes (when
the GET succeeded and the value is non-empty) with the content type
chosen by isM3U8File, otherwise fall through to the signed-URL
redirect. -/
def ServeHLSFile (videoID filename : String) (cache : String → RedisGet)
    (sign : String → Nat → Except Unit String) : HttpResponse :=
  match cache ("hls:" ++ ("videos/" ++ videoID ++ "/hls/" ++ filename)) with
  | RedisGet.ok c =>
      if c ≠ "" then
        HttpResponse.body
          (if isM3U8File filename then "application/x-mpegURL" else "video/MP2T") c
      else signedRedirect sign ("videos/" ++ videoID ++ "/hls/" ++ filename)
  | _ => signedRedirect sign ("videos/" ++ videoID ++ "/hls/" ++ filename)

/-- ServeDASHFile: as ServeHLSFile with the `dash` path and cache-key
prefix; the content type is dash+xml exactly for the file named
manifest.mpd and video/mp4 otherwise. -/
def ServeDASHFile (videoID filename : String) (cache : String → RedisGet)
    (sign : String → Nat → Except Unit String) : HttpResponse :=
  match cache ("dash:" ++ ("videos/" ++ videoID ++ "/dash/" ++ filename)) with
  | RedisGet.ok c =>
      if c ≠ "" then
        HttpResponse.body
          (if filename == "manifest.mpd" then "application/dash+xml" else "video/mp4") c
      else signedRedirect sign ("videos/" ++ videoID ++ "/dash/" ++ filename)
  | _ => signedRedirect sign ("videos/" ++ videoID ++ "/dash/" ++ filename)

/-- A cache-lookup result the handlers treat as a miss: an error reply
(key missing or connection down) or a successful GET of the empty
string. -/
def cacheMiss : RedisGet → Bool
  | RedisGet.ok c => c == ""
  | _ => true

lemma signedRedirect_not_body (sign : String → Nat → Except Unit String) (k : String) :
    ∀ ct bs, signedRedirect sign k ≠ HttpResponse.body ct bs := by
  intro ct bs
  unfold signedRedirect
  cases sign k segmentURLTTL <;> simp

lemma signedRedirect_ok (sign : String → Nat → Except Unit String) (k u : String)
    (hu : sign k segmentURLTTL = Except.ok u) :
    signedRedirect sign k = HttpResponse.redirect u := by
  unfold signedRedirect
  rw [hu]

lemma ServeHLSFile_miss (videoID filename : String) (cache : String → RedisGet)
    (sign : String → Nat → Except Unit String)
    (hm : cacheMiss (cache ("hls:" ++ ("videos/" ++ videoID ++ "/hls/" ++ filename)))
      = true) :
    ServeHLSFile videoID filename cache sign
      = signedRedirect sign ("videos/" ++ videoID ++ "/hls/" ++ filename) := by
  unfold ServeHLSFile
  cases hval : cache ("hls:" ++ ("videos/" ++ videoID ++ "/hls/" ++ filename)) with
  | ok c =>
    rw [hval] at hm
    have hc : c = "" := by simpa [cacheMiss] using hm
    subst hc
    simp
  | nilReply => rfl
  | connErr => rfl

lemma ServeDASHFile_miss (videoID filename : String) (cache : String → RedisGet)
    (sign : String → Nat → Except Unit String)
    (hm : cacheMiss (cache ("dash:" ++ ("videos/" ++ videoID ++ "/dash/" ++ filename)))
      = true) :
    ServeDASHFile videoID filename cache sign
      = signedRedirect sign ("videos/" ++ videoID ++ "/dash/" ++ filename) := by
  unfold ServeDASHFile
  cases hval : cache ("dash:" ++ ("videos/" ++ videoID ++ "/dash/" ++ filename)) with
  | ok c =>
    rw [hval] at hm
    have hc : c = "" := by simpa [cacheMiss] using hm
    subst hc
    simp
  | nilReply => rfl
  | connErr => rfl

/-- C5: every manifest/segment request looks up `{format}:{objectKey}`;
on a hit the cached bytes are served with the content type derived from
the filename (playlist mime for .m3u8 under hls, dash+xml for
manifest.mpd under dash, media mime otherwise); on a miss the handler
never serves bytes through this service — it responds with a redirect
to the signed Object-Store URL of the object, whose TTL is the
configured 1 hour (3600 s). -/
theorem cache_aside_read_path (videoID filename : String)
    (cache : String → RedisGet) (sign : String → Nat → Except Unit String) :
    segmentURLTTL = 3600 ∧
    (∀ c, cache ("hls:" ++ ("videos/" ++ videoID ++ "/hls/" ++ filename))
        = RedisGet.ok c → c ≠ "" →
      ServeHLSFile videoID filename cache sign =
        HttpResponse.body
          (if isM3U8File filename then "application/x-mpegURL" else "video/MP2T") c) ∧
    (cacheMiss (cache ("hls:" ++ ("videos/" ++ videoID ++ "/hls/" ++ filename)))
        = true →
      (∀ ct bs, ServeHLSFile videoID filename cache sign ≠ HttpResponse.body ct bs) ∧
      ∀ u, sign ("videos/" ++ videoID ++ "/hls/" ++ filename) segmentURLTTL
          = Except.ok u →
        ServeHLSFile videoID filename cache sign = HttpResponse.redirect u) ∧
    (∀ c, cache ("dash:" ++ ("videos/" ++ videoID ++ "/dash/" ++ filename))
        = RedisGet.ok c → c ≠ "" →
      ServeDASHFile videoID filename cache sign =
        HttpResponse.body
          (if filename == "manifest.mpd" then "application/dash+xml" else "video/mp4")
          c) ∧
    (cacheMiss (cache ("dash:" ++ ("videos/" ++ videoID ++ "/dash/" ++ filename)))
        = true →
      (∀ ct bs, ServeDASHFile videoID filename cache sign ≠ HttpResponse.body ct bs) ∧
      ∀ u, sign ("videos/" ++ videoID ++ "/dash/" ++ filename) segmentURLTTL
          = Except.ok u →
        ServeDASHFile videoID filename cache sign = HttpResponse.redirect u) := by
  refine ⟨rfl, ?_, ?_, ?_, ?_⟩
  · intro c hc hne
    unfold ServeHLSFile
    simp only [hc]
    rw [if_pos hne]
  · intro hm
    rw [ServeHLSFile_miss videoID filename cache sign hm]
    exact ⟨signedRedirect_not_body sign _,
      fun u hu => signedRedirect_ok sign _ u hu⟩
  · intro c hc hne
    unfold ServeDASHFile
    simp only [hc]
    rw [if_pos hne]
  · intro hm
    rw [ServeDASHFile_miss videoID filename cache sign hm]
    exact ⟨signedRedirect_not_body sign _,
      fun u hu => signedRedirect_ok sign _ u hu⟩

/-- Witness for C5 with a one-entry in-memory cache: the playlist key is
cached, everything else misses, and signing echoes the key. -/
theorem cache_aside_read_path_witness :
    ((fun k => if k == "hls:videos/vid1/hls/index.m3u8"
        then RedisGet.ok "#EXTM3U" else RedisGet.nilReply)
      ("hls:" ++ ("videos/" ++ "vid1" ++ "/hls/" ++ "index.m3u8"))
      = RedisGet.ok "#EXTM3U" ∧ "#EXTM3U" ≠ "") ∧
    ServeHLSFile "vid1" "index.m3u8"
      (fun k => if k == "hls:videos/vid1/hls/index.m3u8"
        then RedisGet.ok "#EXTM3U" else RedisGet.nilReply)
      (fun k _ => Except.ok k)
      = HttpResponse.body "application/x-mpegURL" "#EXTM3U" ∧
    ServeDASHFile "vid1" "manifest.mpd"
      (fun k => if k == "hls:videos/vid1/hls/index.m3u8"
        then RedisGet.ok "#EXTM3U" else RedisGet.nilReply)
      (fun k _ => Except.ok k)
      = HttpResponse.redirect ("videos/" ++ "vid1" ++ "/dash/" ++ "manifest.mpd") := by
  refine ⟨⟨by decide, by decide⟩, ?_, ?_⟩
  · have h := ((cache_aside_read_path "vid1" "index.m3u8"
      (fun k => if k == "hls:videos/vid1/hls/index.m3u8"
        then RedisGet.ok "#EXTM3U" else RedisGet.nilReply)
      (fun k _ => Except.ok k)).2.1 "#EXTM3U" (by decide) (by decide))
    rw [h]
    decide
  · have h := ((cache_aside_read_path "vid1" "manifest.mpd"
      (fun k => if k == "hls:videos/vid1/hls/index.m3u8"
        then RedisGet.ok "#EXTM3U" else RedisGet.nilReply)
      (fun k _ => Except.ok k)).2.2.2.2 (by decide)).2
      ("videos/" ++ "vid1" ++ "/dash/" ++ "manifest.mpd") rfl
    exact h

/-- C7: an unavailable cache (the GET failing with a connection error)
yields exactly the response a plain cache miss yields — the handler
falls through to the signed-URL redirect, never failing the request
because of the cache. -/
theorem cache_unavailable_falls_through (videoID filename : String)
    (sign : String → Nat → Except Unit String) :
    ServeHLSFile videoID filename (fun _ => RedisGet.connErr) sign =
      ServeHLSFile videoID filename (fun _ => RedisGet.nilReply) sign ∧
    ServeDASHFile videoID filename (fun _ => RedisGet.connErr) sign =
      ServeDASHFile videoID filename (fun _ => RedisGet.nilReply) sign ∧
    (∀ u, sign ("videos/" ++ videoID ++ "/hls/" ++ filename) segmentURLTTL
        = Except.ok u →
      ServeHLSFile videoID filename (fun _ => RedisGet.connErr) sign =
        HttpResponse.redirect u) := by
  refine ⟨rfl, rfl, ?_⟩
  intro u hu
  rw [ServeHLSFile_miss videoID filename (fun _ => RedisGet.connErr) sign rfl]
  exact signedRedirect_ok sign _ u hu

/-- Witness for C7 at a concrete request with an echoing signer. -/
theorem cache_unavailable_falls_through_witness :
    (ServeHLSFile "vid1" "seg_000.ts" (fun _ => RedisGet.connErr)
        (fun k _ => Except.ok k) =
      ServeHLSFile "vid1" "seg_000.ts" (fun _ => RedisGet.nilReply)
        (fun k _ => Except.ok k)) ∧
    ServeHLSFile "vid1" "seg_000.ts" (fun _ => RedisGet.connErr)
        (fun k _ => Except.ok k)
      = HttpResponse.redirect ("videos/" ++ "vid1" ++ "/hls/" ++ "seg_000.ts") :=
  ⟨(cache_unavailable_falls_through "vid1" "seg_000.ts" (fun k _ => Except.ok k)).1,
    (cache_unavailable_falls_through "vid1" "seg_000.ts"
      (fun k _ => Except.ok k)).2.2
      ("videos/" ++ "vid1" ++ "/hls/" ++ "seg_000.ts") rfl⟩

/-- Accumulated video-detail fields GetVideoInfo derives from the
video's streams. -/
structure VideoStreamInfo where
  formats : List String
  hlsMaster : String
  dashMaster : String
deriving DecidableEq

/-- The condition under which GetVideoInfo signs the HLS master URL:
the stream has format "hls" at the fixed reference resolution. -/
def hlsMatch (s : VideoStream) : Bool :=
  s.format == "hls" && s.resolution == "1920x1080"

/-- The condition under which GetVideoInfo signs the DASH manifest URL:
the stream has format "dash" at the fixed reference resolution. -/
def dashMatch (s : VideoStream) : Bool :=
  s.format == "dash" && s.resolution == "1920x1080"

/-- Format collection of GetVideoInfo's loop: append the stream's
format to the accumulated format list unless already present. -/
def addFormat (acc : VideoStreamInfo) (s : VideoStream) : VideoStreamInfo :=
  if acc.formats.any (fun f => f == s.format) then acc
  else { acc with formats := acc.formats ++ [s.format] }

/-- One iteration of GetVideoInfo's loop over the video's streams:
collect the stream's format (deduplicated), and when the stream sits at
the fixed reference resolution 1920x1080, sign the fixed
master-manifest object key of its format with the 24-hour TTL (keeping
the previous value when signing fails). -/
def videoInfoStep (videoID : String) (sign : String → Nat → Except Unit String)
    (acc : VideoStreamInfo) (s : VideoStream) : VideoStreamInfo :=
  if hlsMatch s then
    match sign ("videos/" ++ videoID ++ "/hls/master.m3u8") masterURLTTL with
    | Except.ok url => { addFormat acc s with hlsMaster := url }
    | Except.error _ => addFormat acc s
  else if dashMatch s then
    match sign ("videos/" ++ videoID ++ "/dash/manifest.mpd") masterURLTTL with
    | Except.ok url => { addFormat acc s with dashMaster := url }
    | Except.error _ => addFormat acc s
  else addFormat acc s

/-- GetVideoInfo's derivation of the available formats and the
master-manifest URLs from the video's streams; the master fields start
empty and stay empty when no 1080p rendition of the format exists. -/
def GetVideoInfo (videoID : String) (streams : List VideoStream)
    (sign : String → Nat → Except Unit String) : VideoStreamInfo :=
  streams.foldl (videoInfoStep videoID sign)
    { formats := [], hlsMaster := "", dashMaster := "" }

lemma dashMatch_hlsMatch_false {s : VideoStream} (h : dashMatch s = true) :
    hlsMatch s = false := by
  simp only [dashMatch, Bool.and_eq_true, beq_iff_eq] at h
  simp [hlsMatch, h.1]

lemma addFormat_hlsMaster (acc : VideoStreamInfo) (s : VideoStream) :
    (addFormat acc s).hlsMaster = acc.hlsMaster := by
  unfold addFormat
  split <;> rfl

lemma addFormat_dashMaster (acc : VideoStreamInfo) (s : VideoStream) :
    (addFormat acc s).dashMaster = acc.dashMaster := by
  unfold addFormat
  split <;> rfl

lemma videoInfoStep_hlsMaster_keep (videoID : String)
    (sign : String → Nat → Except Unit String) (acc : VideoStreamInfo)
    (s : VideoStream) (h : hlsMatch s = false) :
    (videoInfoStep videoID sign acc s).hlsMaster = acc.hlsMaster := by
  unfold videoInfoStep
  rw [if_neg (by simp [h])]
  by_cases hd : dashMatch s = true
  · rw [if_pos hd]
    cases sign ("videos/" ++ videoID ++ "/dash/manifest.mpd") masterURLTTL <;>
      exact addFormat_hlsMaster acc s
  · rw [if_neg hd]
    exact addFormat_hlsMaster acc s

lemma videoInfoStep_hlsMaster_set (videoID : String)
    (sign : String → Nat → Except Unit String) (acc : VideoStreamInfo)
    (s : VideoStream) (u : String) (h : hlsMatch s = true)
    (hu : sign ("videos/" ++ videoID ++ "/hls/master.m3u8") masterURLTTL
      = Except.ok u) :
    (videoInfoStep videoID sign acc s).hlsMaster = u := by
  unfold videoInfoStep
  rw [if_pos h, hu]

lemma videoInfoStep_dashMaster_keep (videoID : String)
    (sign : String → Nat → Except Unit String) (acc : VideoStreamInfo)
    (s : VideoStream) (h : dashMatch s = false) :
    (videoInfoStep videoID sign acc s).dashMaster = acc.dashMaster := by
  unfold videoInfoStep
  by_cases hh : hlsMatch s = true
  · rw [if_pos hh]
    cases sign ("videos/" ++ videoID ++ "/hls/master.m3u8") masterURLTTL <;>
      exact addFormat_dashMaster acc s
  · rw [if_neg hh, if_neg (by simp [h])]
    exact addFormat_dashMaster acc s

lemma videoInfoStep_dashMaster_set (videoID : String)
    (sign : String → Nat → Except Unit String) (acc : VideoStreamInfo)
    (s : VideoStream) (w : String) (h : dashMatch s = true)
    (hw : sign ("videos/" ++ videoID ++ "/dash/manifest.mpd") masterURLTTL
      = Except.ok w) :
    (videoInfoStep videoID sign acc s).dashMaster = w := by
  unfold videoInfoStep
  rw [if_neg (by simp [dashMatch_hlsMatch_false h]), if_pos h, hw]

lemma foldl_hlsMaster (videoID : String)
    (sign : String → Nat → Except Unit String) (u : String)
    (hu : sign ("videos/" ++ videoID ++ "/hls/master.m3u8") masterURLTTL
      = Except.ok u) :
    ∀ (streams : List VideoStream) (acc : VideoStreamInfo),
      ((∃ s ∈ streams, hlsMatch s = true) →
        (streams.foldl (videoInfoStep videoID sign) acc).hlsMaster = u) ∧
      ((∀ s ∈ streams, hlsMatch s = false) →
        (streams.foldl (videoInfoStep videoID sign) acc).hlsMaster = acc.hlsMaster) := by
  intro streams
  induction streams with
  | nil =>
    intro acc
    exact ⟨fun ⟨s, hs, _⟩ => absurd hs (List.not_mem_nil s), fun _ => rfl⟩
  | cons s t ih =>
    intro acc
    constructor
    · rintro ⟨x, hx, hmx⟩
      rw [List.foldl_cons]
      rcases List.mem_cons.mp hx with rfl | hx
      · by_cases ht : ∃ y ∈ t, hlsMatch y = true
        · exact (ih _).1 ht
        · have hall : ∀ y ∈ t, hlsMatch y = false := by
            intro y hy
            by_contra hc
            exact ht ⟨y, hy, by simpa using hc⟩
          rw [(ih _).2 hall]
          exact videoInfoStep_hlsMaster_set videoID sign acc x u hmx hu
      · exact (ih _).1 ⟨x, hx, hmx⟩
    · intro hall
      rw [List.foldl_cons,
        (ih _).2 (fun y hy => hall y (List.mem_cons_of_mem s hy)),
        videoInfoStep_hlsMaster_keep videoID sign acc s
          (hall s (List.mem_cons_self s t))]

lemma foldl_dashMaster (videoID : String)
    (sign : String → Nat → Except Unit String) (w : String)
    (hw : sign ("videos/" ++ videoID ++ "/dash/manifest.mpd") masterURLTTL
      = Except.ok w) :
    ∀ (streams : List VideoStream) (acc : VideoStreamInfo),
      ((∃ s ∈ streams, dashMatch s = true) →
        (streams.foldl (videoInfoStep videoID sign) acc).dashMaster = w) ∧
      ((∀ s ∈ streams, dashMatch s = false) →
        (streams.foldl (videoInfoStep videoID sign) acc).dashMaster
          = acc.dashMaster) := by
  intro streams
  induction streams with
  | nil =>
    intro acc
    exact ⟨fun ⟨s, hs, _⟩ => absurd hs (List.not_mem_nil s), fun _ => rfl⟩
  | cons s t ih =>
    intro acc
    constructor
    · rintro ⟨x, hx, hmx⟩
      rw [List.foldl_cons]
      rcases List.mem_cons.mp hx with rfl | hx
      · by_cases ht : ∃ y ∈ t, dashMatch y = true
        · exact (ih _).1 ht
        · have hall : ∀ y ∈ t, dashMatch y = false := by
            intro y hy
            by_contra hc
            exact ht ⟨y, hy, by simpa using hc⟩
          rw [(ih _).2 hall]
          exact videoInfoStep_dashMaster_set videoID sign acc x w hmx hw
      · exact (ih _).1 ⟨x, hx, hmx⟩
    · intro hall
      rw [List.foldl_cons,
        (ih _).2 (fun y hy => hall y (List.mem_cons_of_mem s hy)),
        videoInfoStep_dashMaster_keep videoID sign acc s
          (hall s (List.mem_cons_self s t))]

/-- C6 counterexample: with a signer that returns the signed object key
itself, the video detail of a video whose only rendition is the 1080p
HLS stream demoStream reports the signature of the fixed key
videos/vid1/hls/master.m3u8 — which is not the located rendition's own
object key (demoStream.path), contradicting the claim that the
rendition's object key is signed. -/
theorem video_detail_master_counterexample :
    (GetVideoInfo "vid1" [demoStream] (fun k _ => Except.ok k)).hlsMaster
      = "videos/vid1/hls/master.m3u8" ∧
    "videos/vid1/hls/master.m3u8" ≠ demoStream.path :=
  ⟨rfl, by decide⟩

/-- C6 (amended): the video-detail operation uses the presence of a
rendition of the format at the fixed reference resolution 1920x1080 as
its gate, and signs the fixed master-manifest object key of that format
(videos/{id}/hls/master.m3u8, resp. videos/{id}/dash/manifest.mpd) —
not the located rendition's own object key — with the 24-hour TTL,
which is longer than the 1-hour TTL of individual segment signatures. -/
theorem video_detail_master_urls (videoID : String) (streams : List VideoStream)
    (sign : String → Nat → Except Unit String) (u w : String)
    (hu : sign ("videos/" ++ videoID ++ "/hls/master.m3u8") masterURLTTL
      = Except.ok u)
    (hw : sign ("videos/" ++ videoID ++ "/dash/manifest.mpd") masterURLTTL
      = Except.ok w)
    (hhls : ∃ s ∈ streams, hlsMatch s = true)
    (hdash : ∃ s ∈ streams, dashMatch s = true) :
    (GetVideoInfo videoID streams sign).hlsMaster = u ∧
    (GetVideoInfo videoID streams sign).dashMaster = w ∧
    masterURLTTL = 86400 ∧ segmentURLTTL = 3600 ∧ segmentURLTTL < masterURLTTL :=
  ⟨(foldl_hlsMaster videoID sign u hu streams _).1 hhls,
   (foldl_dashMaster videoID sign w hw streams _).1 hdash,
   rfl, rfl, by decide⟩

/-- A 1080p DASH rendition row used to instantiate the video-detail
theorem. -/
def demoDashStream : VideoStream :=
  { id := "vid1-dash", videoID := "vid1", resolution := "1920x1080",
    bitrate := "5000k", format := "dash", path := "videos/vid1/dash/vid1.mpd",
    size := 0, segmentSize := 10, createdAt := 0 }

/-- Witness for the amended C6 at concrete streams and an echoing
signer. -/
theorem video_detail_master_urls_witness :
    ((fun (k : String) (_ : Nat) => (Except.ok k : Except Unit String))
        ("videos/" ++ "vid1" ++ "/hls/master.m3u8") masterURLTTL
      = Except.ok ("videos/" ++ "vid1" ++ "/hls/master.m3u8")) ∧
    ((fun (k : String) (_ : Nat) => (Except.ok k : Except Unit String))
        ("videos/" ++ "vid1" ++ "/dash/manifest.mpd") masterURLTTL
      = Except.ok ("videos/" ++ "vid1" ++ "/dash/manifest.mpd")) ∧
    (∃ s ∈ [demoStream, demoDashStream], hlsMatch s = true) ∧
    (∃ s ∈ [demoStream, demoDashStream], dashMatch s = true) ∧
    ((GetVideoInfo "vid1" [demoStream, demoDashStream]
        (fun k _ => Except.ok k)).hlsMaster
        = "videos/" ++ "vid1" ++ "/hls/master.m3u8" ∧
      (GetVideoInfo "vid1" [demoStream, demoDashStream]
        (fun k _ => Except.ok k)).dashMaster
        = "videos/" ++ "vid1" ++ "/dash/manifest.mpd" ∧
      masterURLTTL = 86400 ∧ segmentURLTTL = 3600 ∧ segmentURLTTL < masterURLTTL) :=
  ⟨rfl, rfl, ⟨demoStream, by decide⟩, ⟨demoDashStream, by decide⟩,
   video_detail_master_urls "vid1" [demoStream, demoDashStream]
     (fun k _ => Except.ok k) _ _ rfl rfl
     ⟨demoStream, by decide⟩ ⟨demoDashStream, by decide⟩⟩

/-- ORDER BY created_at DESC as a relation: rows with larger created_at
come first. -/
def createdDesc (a b : Video) : Prop := b.createdAt ≤ a.createdAt

instance : DecidableRel createdDesc :=
  fun a b => inferInstanceAs (Decidable (b.createdAt ≤ a.createdAt))

instance : IsTotal Video createdDesc :=
  ⟨fun a b => (Nat.le_total b.createdAt a.createdAt).elim Or.inl Or.inr⟩

instance : IsTrans Video createdDesc :=
  ⟨fun _ _ _ hab hbc => Nat.le_trans hbc hab⟩

/-- Database.ListVideos: SELECT .. FROM videos ORDER BY created_at DESC
LIMIT $1 OFFSET $2, modelled as sorting the table newest-first and then
applying offset and limit (both naturals here; the handler's defaults
are non-negative). -/
def ListVideos (videos : List Video) (limit offset : Nat) : List Video :=
  ((videos.insertionSort createdDesc).drop offset).take limit

/-- JSON shape of the streamer's listing response: the video page plus
the echoed pagination parameters. -/
structure ListVideosResponse where
  videos : List Video
  limit : Nat
  offset : Nat
deriving DecidableEq

/-- Streamer ListVideos handler: limit defaults to 10 and offset to 0
when the query parameter is absent; the values are passed to the
catalog query unmodified — no cap — and echoed in the pagination
object. -/
def ListVideosHandler (videos : List Video) (limitParam offsetParam : Option Nat) :
    ListVideosResponse :=
  { videos := ListVideos videos (limitParam.getD 10) (offsetParam.getD 0)
    limit := limitParam.getD 10
    offset := offsetParam.getD 0 }

/-- C8: the listing on the empty catalog with default parameters
returns the empty video list with pagination limit 10 / offset 0 (the
query model has no error path); in general it returns the videos
ordered by creation time descending with the caller-supplied offset and
limit applied un-capped: the page is the take/drop of the sorted table,
it is sorted, its length is at most the limit, and a limit of at least
the table size returns the whole table. -/
theorem list_videos_pagination (videos : List Video) (l o k : Nat) :
    ListVideosHandler [] none none
      = { videos := [], limit := 10, offset := 0 } ∧
    (ListVideosHandler videos (some l) (some o)).limit = l ∧
    (ListVideosHandler videos (some l) (some o)).offset = o ∧
    (ListVideosHandler videos (some l) (some o)).videos
      = ((videos.insertionSort createdDesc).drop o).take l ∧
    (ListVideosHandler videos (some l) (some o)).videos.Sorted createdDesc ∧
    (ListVideosHandler videos (some l) (some o)).videos.length ≤ l ∧
    (ListVideosHandler videos (some (videos.length + k)) (some 0)).videos.length
      = videos.length := by
  refine ⟨rfl, rfl, rfl, rfl, ?_, ?_, ?_⟩
  · show List.Sorted createdDesc
      (((videos.insertionSort createdDesc).drop o).take l)
    have hs := List.sorted_insertionSort createdDesc videos
    exact hs.drop.take
  · exact ((videos.insertionSort createdDesc).drop o).length_take_le l
  · show (((videos.insertionSort createdDesc).drop 0).take (videos.length + k)).length
      = videos.length
    rw [List.drop_zero,
      List.take_of_length_le (by rw [List.length_insertionSort]; omega),
      List.length_insertionSort]

/-- Witness for the amended C1 at concrete run parameters (a run whose
transcode stage failed once after its status write and was retried). -/
theorem pipeline_states_forward_witness :
    List.Chain' forwardStep (statusesOf (workflowOps demoParams "movie" 0 0 demoLadder
      (RunOutcome.transcodeFail [some 1]))) ∧
    ∀ s ∈ statusesOf (workflowOps demoParams "movie" 0 0 demoLadder
      (RunOutcome.transcodeFail [some 1])), s ∈ workflowStates :=
  pipeline_states_forward demoParams "movie" 0 0 demoLadder
    (RunOutcome.transcodeFail [some 1])
